import Mathlib

/-
Verification of the pkgcraft Python bindings build descriptor
(bindings/python/setup.py) and of the extension build pipeline it
drives.  The descriptor itself is embedded directly from the source
file; the pipeline (Cython translation, native compilation, linking)
is performed by the external toolchain invoked by setup, so its
behaviour is modelled from the specification of the Extension Build
Driver.
-/

/-- One extension target as declared by setuptools.Extension: a module
name, a list of source paths, and a list of native libraries to link
against.  Mirrors the positional and keyword arguments used in
setup.py. -/
structure ExtensionTarget where
  name : String
  sources : List String
  libraries : List String
deriving DecidableEq

/-- Constructor mirroring the call shape used in setup.py:
Extension("pkgcraft", ["src/pkgcraft.pyx"], libraries=["pkgcraft"]). -/
def Extension (name : String) (sources : List String) (libraries : List String) :
    ExtensionTarget :=
  { name := name, sources := sources, libraries := libraries }

/-- The build descriptor of setup.py, line 4:
extensions = [Extension("pkgcraft", ["src/pkgcraft.pyx"], libraries=["pkgcraft"])]. -/
def extensions : List ExtensionTarget :=
  [Extension "pkgcraft" ["src/pkgcraft.pyx"] ["pkgcraft"]]

/-- Modelled from the spec: cythonize hands the declared extension
targets to the build driver; at the descriptor level it is the list of
extension modules to build (the bridge-to-native translation itself is
a stage of the driver, modelled below in buildTarget). -/
def cythonize (ts : List ExtensionTarget) : List ExtensionTarget := ts

/-- The configuration fields a setup invocation may supply.  Fields the
source does not pass keep their default of none. -/
structure SetupArgs where
  name : Option String := none
  version : Option String := none
  ext_modules : Option (List ExtensionTarget) := none
  min_library_version : Option String := none
  output_dir : Option String := none
  parallel : Option Nat := none
deriving DecidableEq

/-- The setup invocation of setup.py, lines 6-9: only the distribution
name and the cythonized extension list are supplied. -/
def setupArgs : SetupArgs :=
  { name := some "python bindings for pkgcraft",
    ext_modules := some (cythonize extensions) }

/-- Modelled from the spec: the host environment seen by the build
driver.  The library search path is an ordered list of directories
together with their contents; sources, translator and compiler
outcomes, the symbols a bridge source references, and the symbols each
native library exports are black-box facts about the host. -/
structure BuildEnv where
  searchPath : List String
  dirHasLib : String → String → Bool
  sourceExists : String → Bool
  translateOk : String → Bool
  translateDiag : String → String
  compileOk : String → Bool
  compileDiag : String → String
  bridgeSymbols : String → List String
  libExports : String → String → Bool

/-- Modelled from the spec: a named library resolves when some
directory of the host search path provides it. -/
def BuildEnv.libResolves (env : BuildEnv) (lib : String) : Bool :=
  env.searchPath.any fun d => env.dirHasLib d lib

/-- Modelled from the spec: the error taxonomy of the Extension Build
Driver. -/
inductive BuildError where
  | SourceNotFound : BuildError
  | TranslationError : String → BuildError
  | CompileError : String → BuildError
  | UnresolvedLibrary : String → BuildError
  | UnresolvedSymbol : String → BuildError
deriving DecidableEq

/-- A build artifact, named after its target. -/
structure BuildArtifact where
  name : String
deriving DecidableEq

/-- Modelled from the spec: artifact naming is a function of the
target name alone. -/
def artifactName (t : ExtensionTarget) : String := t.name

/-- All sources of a target exist and are readable. -/
def sourcesOk (env : BuildEnv) (t : ExtensionTarget) : Bool :=
  t.sources.all env.sourceExists

/-- The first library of the list that does not resolve on the host
search path, if any. -/
def firstUnresolvedLib (env : BuildEnv) (libs : List String) : Option String :=
  libs.find? fun lib => ! env.libResolves lib

/-- A symbol is exported by at least one of the linked libraries. -/
def symbolExported (env : BuildEnv) (libs : List String) (s : String) : Bool :=
  libs.any fun lib => env.libExports lib s

/-- All symbols the bridge sources of a target reference, in order. -/
def referencedSymbols (env : BuildEnv) (t : ExtensionTarget) : List String :=
  (t.sources.map env.bridgeSymbols).flatten

/-- The first referenced symbol exported by none of the linked
libraries, if any. -/
def firstUnresolvedSymbol (env : BuildEnv) (t : ExtensionTarget) : Option String :=
  (referencedSymbols env t).find? fun s => ! symbolExported env t.libraries s

/-- Modelled from the spec: the Extension Build Driver contract for one
target.  Stages run in order: locate the sources, translate each bridge
source, compile the translated units, then link, resolving each named
library via the search path and each referenced symbol via the linked
libraries; the first failing stage is fatal to the target. -/
def buildTarget (env : BuildEnv) (t : ExtensionTarget) :
    Except BuildError BuildArtifact :=
  if (t.sources.find? fun p => ! env.sourceExists p).isSome then
    .error .SourceNotFound
  else
    match t.sources.find? fun p => ! env.translateOk p with
    | some p => .error (.TranslationError (env.translateDiag p))
    | none =>
      match t.sources.find? fun p => ! env.compileOk p with
      | some p => .error (.CompileError (env.compileDiag p))
      | none =>
        match firstUnresolvedLib env t.libraries with
        | some lib => .error (.UnresolvedLibrary lib)
        | none =>
          match firstUnresolvedSymbol env t with
          | some s => .error (.UnresolvedSymbol s)
          | none => .ok { name := artifactName t }

/-- The stages of the pipeline, in pipeline order. -/
inductive Stage where
  | locate : Stage
  | translate : Stage
  | compile : Stage
  | link : Stage
deriving DecidableEq

/-- The stage at which each error arises. -/
def stageOf : BuildError → Stage
  | .SourceNotFound => .locate
  | .TranslationError _ => .translate
  | .CompileError _ => .compile
  | .UnresolvedLibrary _ => .link
  | .UnresolvedSymbol _ => .link

/-- Modelled from the spec: the sequence of external tool stages the
driver runs for one target.  A stage runs only once every earlier stage
has completed successfully, since it consumes the earlier stage's
output file. -/
def stageTrace (env : BuildEnv) (t : ExtensionTarget) : List Stage :=
  if ! sourcesOk env t then []
  else if (t.sources.find? fun p => ! env.translateOk p).isSome then [.translate]
  else if (t.sources.find? fun p => ! env.compileOk p).isSome then
    [.translate, .compile]
  else [.translate, .compile, .link]

/-- Modelled from the spec: the batch build runs the driver on every
declared target independently, pairing each target name with its
outcome. -/
def buildAll (env : BuildEnv) (ts : List ExtensionTarget) :
    List (String × Except BuildError BuildArtifact) :=
  ts.map fun t => (t.name, buildTarget env t)

/-- Modelled from the spec: the process exit status is zero iff every
target built successfully. -/
def exitCode (rs : List (String × Except BuildError BuildArtifact)) : Nat :=
  if rs.all fun r => r.2.isOk then 0 else 1

/-- Modelled from the spec: the per-target stage-tagged diagnostics
emitted on the error stream. -/
def diagnostics (rs : List (String × Except BuildError BuildArtifact)) :
    List (String × Stage) :=
  rs.filterMap fun r =>
    match r.2 with
    | .error e => some (r.1, stageOf e)
    | .ok _ => none

/-- The artifacts the batch build produced. -/
def producedArtifacts (rs : List (String × Except BuildError BuildArtifact)) :
    List BuildArtifact :=
  rs.filterMap fun r =>
    match r.2 with
    | .error _ => none
    | .ok a => some a

/-- Modelled from the spec: writing the produced artifacts into the
output directory overwrites any artifact of the same name and leaves
the rest of the directory unchanged. -/
def storeAfter (s : String → Option BuildArtifact)
    (rs : List (String × Except BuildError BuildArtifact)) :
    String → Option BuildArtifact :=
  fun n =>
    match (producedArtifacts rs).find? fun a => a.name == n with
    | some a => some a
    | none => s n

/-- Modelled from the spec: the whole state a build invocation touches,
the read-only host environment and the output directory contents. -/
structure BuildState where
  env : BuildEnv
  store : String → Option BuildArtifact

/-- Modelled from the spec: one build invocation over a list of
targets: it writes the produced artifacts and touches nothing else. -/
def runBuild (ts : List ExtensionTarget) (st : BuildState) : BuildState :=
  { st with store := storeAfter st.store (buildAll st.env ts) }

/-- A target on which every stage succeeds. -/
def validTarget (env : BuildEnv) (t : ExtensionTarget) : Bool :=
  sourcesOk env t && t.sources.all env.translateOk && t.sources.all env.compileOk
    && t.libraries.all env.libResolves && (firstUnresolvedSymbol env t).isNone

/-- A concrete host on which the declared target builds: every source
exists, translation and compilation succeed, and the search path holds
the pkgcraft library, which exports the one symbol the bridge source
references. -/
def goodEnv : BuildEnv :=
  { searchPath := ["/usr/lib"],
    dirHasLib := fun _ lib => lib == "pkgcraft",
    sourceExists := fun _ => true,
    translateOk := fun _ => true,
    translateDiag := fun _ => "",
    compileOk := fun _ => true,
    compileDiag := fun _ => "",
    bridgeSymbols := fun _ => ["pkgcraft_version"],
    libExports := fun lib s => lib == "pkgcraft" && s == "pkgcraft_version" }

/-- A host identical to goodEnv except that no directory of the search
path provides any library. -/
def noLibEnv : BuildEnv :=
  { goodEnv with dirHasLib := fun _ _ => false }

theorem findNotNone {α : Type} {f : α → Bool} {l : List α} (h : l.all f = true) :
    (l.find? fun p => ! f p) = none := by
  rw [List.find?_eq_none]
  intro x hx
  simp [List.all_eq_true.mp h x hx]

theorem buildTarget_ok {env : BuildEnv} {t : ExtensionTarget}
    (h : validTarget env t = true) :
    buildTarget env t = .ok { name := artifactName t } := by
  simp only [validTarget, sourcesOk, Bool.and_eq_true] at h
  obtain ⟨⟨⟨⟨h1, h2⟩, h3⟩, h4⟩, h5⟩ := h
  have e4 : firstUnresolvedLib env t.libraries = none := findNotNone h4
  have e5 : firstUnresolvedSymbol env t = none := Option.isNone_iff_eq_none.mp h5
  simp [buildTarget, findNotNone h1, findNotNone h2, findNotNone h3, e4, e5]

theorem libResolves_of_ok {env : BuildEnv} {t : ExtensionTarget} {a : BuildArtifact}
    (h : buildTarget env t = .ok a) :
    ∀ lib ∈ t.libraries, env.libResolves lib = true := by
  intro lib hmem
  by_contra hres
  have hfalse : env.libResolves lib = false := by simpa using hres
  have hs : (firstUnresolvedLib env t.libraries).isSome = true := by
    rw [firstUnresolvedLib, List.find?_isSome]
    exact ⟨lib, hmem, by simp [hfalse]⟩
  obtain ⟨l, hl⟩ := Option.isSome_iff_exists.mp hs
  unfold buildTarget at h
  split at h
  · cases h
  · split at h
    · cases h
    · split at h
      · cases h
      · simp [hl] at h

/-- Claim C1, counterexample: the claim states the sole target's source
path is "src/pkgcraft.bridge", but setup.py line 4 declares it as
"src/pkgcraft.pyx", so the descriptor differs from the claimed one. -/
theorem c1_source_path_counterexample :
    extensions ≠ [Extension "pkgcraft" ["src/pkgcraft.bridge"] ["pkgcraft"]] := by
  decide

/-- Claim C1 (amended): the build descriptor declares exactly one
extension target, named "pkgcraft", with source path "src/pkgcraft.pyx"
and link libraries exactly ["pkgcraft"]; on any host on which its
sources exist, translation and compilation succeed, and its libraries
and referenced symbols resolve, building the descriptor succeeds,
produces exactly one artifact named "pkgcraft", and exits with code
0. -/
theorem c1_descriptor_builds (env : BuildEnv)
    (h : ∀ t ∈ extensions, validTarget env t = true) :
    extensions.length = 1 ∧
    (∀ t ∈ extensions,
      t.name = "pkgcraft" ∧ t.sources = ["src/pkgcraft.pyx"] ∧
        t.libraries = ["pkgcraft"]) ∧
    producedArtifacts (buildAll env extensions) = [{ name := "pkgcraft" }] ∧
    exitCode (buildAll env extensions) = 0 := by
  have hb := buildTarget_ok
    (h (Extension "pkgcraft" ["src/pkgcraft.pyx"] ["pkgcraft"]) (by decide))
  simp only [Extension, artifactName] at hb
  refine ⟨by decide, by decide, ?_, ?_⟩
  · simp [buildAll, extensions, producedArtifacts, Extension, hb]
  · simp [buildAll, extensions, exitCode, Extension, Except.isOk, Except.toBool, hb]

/-- Claim C1 witness: on the concrete host goodEnv the hypothesis
holds and the descriptor build succeeds as stated. -/
theorem c1_descriptor_builds_witness :
    (∀ t ∈ extensions, validTarget goodEnv t = true) ∧
    producedArtifacts (buildAll goodEnv extensions) = [{ name := "pkgcraft" }] ∧
    exitCode (buildAll goodEnv extensions) = 0 :=
  ⟨by decide, (c1_descriptor_builds goodEnv (by decide)).2.2⟩

/-- Claim C2: if a library in a target's link list does not resolve on
the host search path — the earlier stages having succeeded and that
library being the offending (first unresolved) one — then the build of
that target fails with UnresolvedLibrary carrying exactly that
library's name, the batch exits non-zero, and no artifact is produced
for the target. -/
theorem c2_unresolved_library (env : BuildEnv) (t : ExtensionTarget) (lib : String)
    (hsrc : t.sources.all env.sourceExists = true)
    (htr : t.sources.all env.translateOk = true)
    (hco : t.sources.all env.compileOk = true)
    (hmem : lib ∈ t.libraries)
    (hlib : env.libResolves lib = false)
    (hfirst : ∀ l ∈ t.libraries, env.libResolves l = false → l = lib) :
    buildTarget env t = .error (.UnresolvedLibrary lib) ∧
    exitCode (buildAll env [t]) ≠ 0 ∧
    producedArtifacts (buildAll env [t]) = [] := by
  have hfind : firstUnresolvedLib env t.libraries = some lib := by
    have hs : (t.libraries.find? fun l => ! env.libResolves l).isSome = true := by
      rw [List.find?_isSome]
      exact ⟨lib, hmem, by simp [hlib]⟩
    obtain ⟨l, hl⟩ := Option.isSome_iff_exists.mp hs
    have hpl := List.find?_some hl
    have hml : l ∈ t.libraries := List.mem_of_find?_eq_some hl
    have hllib : l = lib := hfirst l hml (by simpa using hpl)
    rw [firstUnresolvedLib, hl, hllib]
  have hb : buildTarget env t = .error (.UnresolvedLibrary lib) := by
    simp [buildTarget, findNotNone hsrc, findNotNone htr, findNotNone hco, hfind]
  refine ⟨hb, ?_, ?_⟩
  · simp [buildAll, exitCode, Except.isOk, Except.toBool, hb]
  · simp [buildAll, producedArtifacts, hb]

/-- Claim C2 witness: on the host noLibEnv, where the search path
provides no libraries, the declared pkgcraft target fails with
UnresolvedLibrary "pkgcraft", exits non-zero, and yields no
artifact. -/
theorem c2_unresolved_library_witness :
    buildTarget noLibEnv (Extension "pkgcraft" ["src/pkgcraft.pyx"] ["pkgcraft"])
      = .error (.UnresolvedLibrary "pkgcraft") ∧
    exitCode (buildAll noLibEnv
      [Extension "pkgcraft" ["src/pkgcraft.pyx"] ["pkgcraft"]]) ≠ 0 ∧
    producedArtifacts (buildAll noLibEnv
      [Extension "pkgcraft" ["src/pkgcraft.pyx"] ["pkgcraft"]]) = [] :=
  c2_unresolved_library noLibEnv
    (Extension "pkgcraft" ["src/pkgcraft.pyx"] ["pkgcraft"]) "pkgcraft"
    (by decide) (by decide) (by decide) (by decide) (by decide) (by decide)

/-- The sole target declared in setup.py, for concrete instances. -/
def pkgcraftTarget : ExtensionTarget :=
  Extension "pkgcraft" ["src/pkgcraft.pyx"] ["pkgcraft"]

/-- A host on which only the declared bridge source exists. -/
def missEnv : BuildEnv :=
  { goodEnv with sourceExists := fun p => p == "src/pkgcraft.pyx" }

/-- A second, independent target whose source file does not exist on
missEnv. -/
def brokenTarget : ExtensionTarget :=
  Extension "broken" ["src/missing.pyx"] ["pkgcraft"]

/-- Claim C3: a target whose source path does not name an existing
readable file fails with SourceNotFound, that failure is the target's
recorded outcome in the batch, and every target of the same batch on
which all stages succeed still builds, its artifact being among the
produced ones. -/
theorem c3_source_not_found (env : BuildEnv) (ts : List ExtensionTarget)
    (t : ExtensionTarget) (hmem : t ∈ ts) (hmiss : sourcesOk env t = false) :
    buildTarget env t = .error .SourceNotFound ∧
    (t.name, (Except.error .SourceNotFound : Except BuildError BuildArtifact))
      ∈ buildAll env ts ∧
    ∀ u ∈ ts, validTarget env u = true →
      buildTarget env u = .ok { name := artifactName u } ∧
      ({ name := artifactName u } : BuildArtifact)
        ∈ producedArtifacts (buildAll env ts) := by
  have hfail : buildTarget env t = .error .SourceNotFound := by
    have hsome : (t.sources.find? fun p => ! env.sourceExists p).isSome = true := by
      rw [List.find?_isSome]
      rw [sourcesOk, List.all_eq_false] at hmiss
      obtain ⟨p, hp, hnp⟩ := hmiss
      exact ⟨p, hp, by simpa using hnp⟩
    simp [buildTarget, hsome]
  refine ⟨hfail, ?_, ?_⟩
  · exact List.mem_map.mpr ⟨t, hmem, by rw [hfail]⟩
  · intro u humem hval
    have hu := buildTarget_ok hval
    refine ⟨hu, ?_⟩
    rw [producedArtifacts, List.mem_filterMap]
    exact ⟨(u.name, buildTarget env u), List.mem_map.mpr ⟨u, humem, rfl⟩, by simp [hu]⟩

/-- Claim C3 witness: on the host missEnv, the batch of the valid
pkgcraft target and the broken target reports SourceNotFound for the
broken one while the pkgcraft artifact is still produced. -/
theorem c3_source_not_found_witness :
    buildTarget missEnv brokenTarget = .error .SourceNotFound ∧
    buildTarget missEnv pkgcraftTarget = .ok { name := "pkgcraft" } ∧
    ({ name := "pkgcraft" } : BuildArtifact)
      ∈ producedArtifacts (buildAll missEnv [pkgcraftTarget, brokenTarget]) := by
  have h := c3_source_not_found missEnv [pkgcraftTarget, brokenTarget] brokenTarget
    (by decide) (by decide)
  refine ⟨h.1, ?_, ?_⟩
  · have hv := (h.2.2 pkgcraftTarget (by decide) (by decide)).1
    simpa [pkgcraftTarget, Extension, artifactName] using hv
  · have hv := (h.2.2 pkgcraftTarget (by decide) (by decide)).2
    simpa [pkgcraftTarget, Extension, artifactName] using hv

/-- Claim C4: the batch exit status is zero iff every declared target
built successfully, and every failing target contributes a stage-tagged
diagnostic carrying its name to the error stream. -/
theorem c4_exit_status (env : BuildEnv) (ts : List ExtensionTarget) :
    (exitCode (buildAll env ts) = 0 ↔
      ∀ t ∈ ts, (buildTarget env t).isOk = true) ∧
    ∀ t ∈ ts, ∀ e : BuildError, buildTarget env t = .error e →
      (t.name, stageOf e) ∈ diagnostics (buildAll env ts) := by
  have key : ((buildAll env ts).all fun r => r.2.isOk)
      = ts.all fun t => (buildTarget env t).isOk := by
    induction ts with
    | nil => rfl
    | cons t rest ih =>
      simp only [buildAll, List.map_cons, List.all_cons] at ih ⊢
      rw [ih]
  constructor
  · have e0 : exitCode (buildAll env ts) = 0 ↔
        ((buildAll env ts).all fun r => r.2.isOk) = true := by
      rw [exitCode]
      split <;> rename_i hcond <;> simp [hcond]
    rw [e0, key, List.all_eq_true]
  · intro t hmem e he
    rw [diagnostics, List.mem_filterMap]
    exact ⟨(t.name, buildTarget env t), List.mem_map.mpr ⟨t, hmem, rfl⟩, by simp [he]⟩

/-- Claim C4 witness: on the host missEnv, the batch of the pkgcraft
target and the broken target exits non-zero and tags the broken
target's failure with the stage it failed at. -/
theorem c4_exit_status_witness :
    exitCode (buildAll missEnv [pkgcraftTarget, brokenTarget]) ≠ 0 ∧
    ("broken", Stage.locate)
      ∈ diagnostics (buildAll missEnv [pkgcraftTarget, brokenTarget]) := by
  have h := c4_exit_status missEnv [pkgcraftTarget, brokenTarget]
  constructor
  · intro h0
    have hall := h.1.mp h0 brokenTarget (by decide)
    revert hall
    decide
  · exact h.2 brokenTarget (by decide) BuildError.SourceNotFound (by rfl)

theorem storeAfter_idem (s : String → Option BuildArtifact)
    (rs : List (String × Except BuildError BuildArtifact)) :
    storeAfter (storeAfter s rs) rs = storeAfter s rs := by
  funext n
  rw [storeAfter, storeAfter]
  cases h : (producedArtifacts rs).find? fun a => a.name == n <;>
    simp [h, storeAfter]

/-- The empty output directory on the concrete host goodEnv. -/
def emptyState : BuildState :=
  { env := goodEnv, store := fun _ => none }

/-- Claim C5: artifact naming is a deterministic function of the target
name; running the build twice from any state equals running it once,
the second run overwriting the first run's artifacts; and a name is
occupied after a run only by an artifact the run produced or by
whatever occupied it before, so no stale artifacts accumulate. -/
theorem c5_deterministic_idempotent :
    (∀ t₁ t₂ : ExtensionTarget, t₁.name = t₂.name →
      artifactName t₁ = artifactName t₂) ∧
    (∀ (ts : List ExtensionTarget) (st : BuildState),
      runBuild ts (runBuild ts st) = runBuild ts st) ∧
    (∀ (ts : List ExtensionTarget) (st : BuildState) (n : String),
      (runBuild ts st).store n = st.store n ∨
      ∃ a, ((producedArtifacts (buildAll st.env ts)).find? fun x => x.name == n)
          = some a ∧ (runBuild ts st).store n = some a) := by
  refine ⟨fun t₁ t₂ h => h, ?_, ?_⟩
  · intro ts st
    cases st with
    | mk env store =>
      simp only [runBuild]
      rw [storeAfter_idem]
  · intro ts st n
    rw [runBuild]
    cases h : (producedArtifacts (buildAll st.env ts)).find? fun x => x.name == n with
    | none => exact Or.inl (by simp [storeAfter, h])
    | some a => exact Or.inr ⟨a, rfl, by simp [storeAfter, h]⟩

/-- Claim C5 witness: two targets sharing the name pkgcraft get the
same artifact name, and rebuilding the declared descriptor from the
empty output directory twice equals building it once. -/
theorem c5_deterministic_idempotent_witness :
    artifactName (Extension "pkgcraft" ["other.pyx"] []) = artifactName pkgcraftTarget ∧
    runBuild [pkgcraftTarget] (runBuild [pkgcraftTarget] emptyState)
      = runBuild [pkgcraftTarget] emptyState :=
  ⟨c5_deterministic_idempotent.1 (Extension "pkgcraft" ["other.pyx"] [])
      pkgcraftTarget rfl,
    c5_deterministic_idempotent.2.1 [pkgcraftTarget] emptyState⟩

/-- Claim C6: if the bridge sources of a target reference a symbol that
no library of its link list exports — the earlier stages having
succeeded, every linked library resolving, and that symbol being the
offending (first unexported) one — then the build of that target fails
with UnresolvedSymbol carrying exactly that symbol's name, not a
generic failure. -/
theorem c6_unresolved_symbol (env : BuildEnv) (t : ExtensionTarget) (s : String)
    (hsrc : t.sources.all env.sourceExists = true)
    (htr : t.sources.all env.translateOk = true)
    (hco : t.sources.all env.compileOk = true)
    (hlibs : t.libraries.all env.libResolves = true)
    (hmem : s ∈ referencedSymbols env t)
    (hexp : symbolExported env t.libraries s = false)
    (hfirst : ∀ x ∈ referencedSymbols env t,
      symbolExported env t.libraries x = false → x = s) :
    buildTarget env t = .error (.UnresolvedSymbol s) := by
  have hfind : firstUnresolvedSymbol env t = some s := by
    have hs : ((referencedSymbols env t).find?
        fun x => ! symbolExported env t.libraries x).isSome = true := by
      rw [List.find?_isSome]
      exact ⟨s, hmem, by simp [hexp]⟩
    obtain ⟨x, hx⟩ := Option.isSome_iff_exists.mp hs
    have hpx := List.find?_some hx
    have hmx : x ∈ referencedSymbols env t := List.mem_of_find?_eq_some hx
    have hxs : x = s := hfirst x hmx (by simpa using hpx)
    rw [firstUnresolvedSymbol, hx, hxs]
  have e4 : firstUnresolvedLib env t.libraries = none := findNotNone hlibs
  simp [buildTarget, findNotNone hsrc, findNotNone htr, findNotNone hco, e4, hfind]

/-- A host identical to goodEnv except that no library exports any
symbol. -/
def noSymEnv : BuildEnv :=
  { goodEnv with libExports := fun _ _ => false }

/-- Claim C6 witness: on the host noSymEnv the declared pkgcraft target
fails with UnresolvedSymbol naming the one symbol its bridge source
references. -/
theorem c6_unresolved_symbol_witness :
    buildTarget noSymEnv pkgcraftTarget
      = .error (.UnresolvedSymbol "pkgcraft_version") :=
  c6_unresolved_symbol noSymEnv pkgcraftTarget "pkgcraft_version"
    (by decide) (by decide) (by decide) (by decide) (by decide) (by decide)
    (by decide)

/-- Claim C7: for every target the stages run strictly in the order
translate, compile, link: the stages actually run always form an
initial segment of that sequence, so a stage runs only once every
earlier stage has completed, and in particular link runs only when
translation and compilation have both completed. -/
theorem c7_stage_order (env : BuildEnv) (t : ExtensionTarget) :
    (stageTrace env t = [] ∨ stageTrace env t = [Stage.translate] ∨
      stageTrace env t = [Stage.translate, Stage.compile] ∨
      stageTrace env t = [Stage.translate, Stage.compile, Stage.link]) ∧
    (Stage.link ∈ stageTrace env t →
      stageTrace env t = [Stage.translate, Stage.compile, Stage.link]) := by
  rw [stageTrace]
  split
  · exact ⟨Or.inl rfl, by intro h; cases h⟩
  · split
    · exact ⟨Or.inr (Or.inl rfl), by intro h; exact absurd h (by decide)⟩
    · split
      · exact ⟨Or.inr (Or.inr (Or.inl rfl)), by intro h; exact absurd h (by decide)⟩
      · exact ⟨Or.inr (Or.inr (Or.inr rfl)), fun _ => rfl⟩

/-- Claim C7 witness: on the concrete host goodEnv the declared target
runs the full translate, compile, link sequence, link last. -/
theorem c7_stage_order_witness :
    Stage.link ∈ stageTrace goodEnv pkgcraftTarget ∧
    stageTrace goodEnv pkgcraftTarget
      = [Stage.translate, Stage.compile, Stage.link] :=
  ⟨by decide, (c7_stage_order goodEnv pkgcraftTarget).2 (by decide)⟩

/-- Claim C8: the host library search path is read-only configuration:
a build invocation leaves the host environment — in particular the
search path and the resolution of every library name against it —
exactly as it was established before the build started. -/
theorem c8_search_path_read_only (ts : List ExtensionTarget) (st : BuildState) :
    (runBuild ts st).env = st.env ∧
    (runBuild ts st).env.searchPath = st.env.searchPath ∧
    ∀ lib, (runBuild ts st).env.libResolves lib = st.env.libResolves lib :=
  ⟨rfl, rfl, fun _ => rfl⟩

/-- A path ends in the Cython bridge extension ".pyx". -/
def hasPyxExt (p : String) : Bool :=
  ".pyx".toList.isSuffixOf p.toList

/-- Claim C9: the sole declared target's module name equals the name of
the single native library it links against, its sources list holds
exactly one path and that path ends in ".pyx", setup receives the
targets through cythonize, and a successful build of the target implies
the identically named library was resolvable at link time. -/
theorem c9_name_coupling :
    extensions.length = 1 ∧
    (∀ t ∈ extensions,
      t.libraries = [t.name] ∧ t.sources.length = 1 ∧
      ∀ p ∈ t.sources, hasPyxExt p = true) ∧
    setupArgs.ext_modules = some (cythonize extensions) ∧
    ∀ (env : BuildEnv), ∀ t ∈ extensions, ∀ a : BuildArtifact,
      buildTarget env t = .ok a → env.libResolves t.name = true := by
  refine ⟨by decide, by decide, rfl, ?_⟩
  intro env t hmem a hok
  have hlibs := libResolves_of_ok hok
  simp only [extensions, List.mem_singleton] at hmem
  subst hmem
  exact hlibs "pkgcraft" (by decide)

/-- Claim C9 witness: on the concrete host goodEnv the declared target
builds, and the pkgcraft library indeed resolves there. -/
theorem c9_name_coupling_witness :
    buildTarget goodEnv pkgcraftTarget = .ok { name := "pkgcraft" } ∧
    goodEnv.libResolves "pkgcraft" = true :=
  ⟨by rfl, c9_name_coupling.2.2.2 goodEnv pkgcraftTarget (by decide)
    { name := "pkgcraft" } (by rfl)⟩

/-- Claim C10: the setup invocation supplies exactly two configuration
fields — the distribution name, a string containing a space, and the
cythonized extension list — and no version, no minimum-library-version
pin, no custom output directory, and no parallel-build option. -/
theorem c10_setup_fields :
    setupArgs.name = some "python bindings for pkgcraft" ∧
    (∃ c ∈ "python bindings for pkgcraft".toList, c = Char.ofNat 32) ∧
    setupArgs.ext_modules = some (cythonize extensions) ∧
    setupArgs.version = none ∧
    setupArgs.min_library_version = none ∧
    setupArgs.output_dir = none ∧
    setupArgs.parallel = none := by
  exact ⟨rfl, ⟨Char.ofNat 32, by decide, rfl⟩, rfl, rfl, rfl, rfl, rfl⟩
